import Mathlib

/-!
Verification development for the AXONIX repository core: the streaming tag
protocol parser (`axonix/core/stream_parser.py`), the per-task step loop
(`Agent.run` in `axonix/core/agent.py`) and the goal-level orchestration loop
(`LoopEngine` in `axonix/core/loop.py`).

The Python code is shallowly embedded: strings are `List Char`, Python dict
values appearing in the JSON wire protocol are an explicit `Json` type,
fallible Python code (code that can raise past a `try` boundary) returns
`Except PyErr`. Outside capabilities (the model backend stream, the tool
dispatch, the LLM completion endpoint) are oracles passed in as functions,
mirroring the fact that the code treats them as black boxes.
-/

namespace Axonix

/-- Error classes of uncaught Python exceptions that the embedded code can
raise. `attributeError` models `AttributeError` (for example calling `.get`
on a non-dict), `typeError` and `valueError` model the errors `dict(...)`
raises on non-coercible inputs. -/
inductive PyErr where
  | attributeError
  | typeError
  | valueError
deriving DecidableEq

/-- Python values produced by `json.loads`, restricted to what JSON can
produce: `None`, `bool`, `int`, `float` (as decimal mantissa/exponent for
literals with a fraction or exponent, plus the `NaN`/`Infinity` constants
that Python json accepts), `str`, `list`, `dict`. Object fields carry no
duplicate keys: the parser collapses duplicates the way dict construction
does (first-occurrence position, last-occurrence value). -/
inductive Json where
  | null
  | bool (b : Bool)
  | num (n : Int)
  | fnum (mant : Int) (exp10 : Int)
  | nan
  | inf (neg : Bool)
  | str (s : List Char)
  | arr (elems : List Json)
  | obj (fields : List (List Char × Json))

/-- Shorthand for turning a Lean string literal into the character-list
representation used throughout the embedding. -/
def tl (s : String) : List Char := s.toList

/-- Python truthiness (`bool(x)`) for JSON-derived values. Empty containers,
empty strings, `None`, `False` and zero are falsy. -/
def pyTruthy : Json → Bool
  | .null => false
  | .bool b => b
  | .num n => n != 0
  | .fnum m _ => m != 0
  | .nan => true
  | .inf _ => true
  | .str s => !s.isEmpty
  | .arr xs => !xs.isEmpty
  | .obj kvs => !kvs.isEmpty

/-- The whitespace set of Python `str.strip()`. -/
def pyWsChar (c : Char) : Bool :=
  c = ' ' ∨ c = '\t' ∨ c = '\n' ∨ c = '\r' ∨ c = '\x0b' ∨ c = '\x0c'

/-- Python `s.strip()`: drop whitespace from both ends. -/
def pyStrip (s : List Char) : List Char :=
  ((s.dropWhile pyWsChar).reverse.dropWhile pyWsChar).reverse

/-- JSON whitespace accepted between tokens by `json.loads`. -/
def jsonWsChar (c : Char) : Bool :=
  c = ' ' ∨ c = '\t' ∨ c = '\n' ∨ c = '\r'

/-- Skip JSON inter-token whitespace. -/
def skipWs (s : List Char) : List Char := s.dropWhile jsonWsChar

/-- Consume an exact literal from the front of the input. -/
def eatLit : List Char → List Char → Option (List Char)
  | [], s => some s
  | p :: ps, c :: cs => if c = p then eatLit ps cs else none
  | _ :: _, [] => none

/-- The constant literals the `json.loads` scanner accepts: `null`, `true`,
`false`, plus the `NaN` and `Infinity` constants Python accepts by default;
tried before any other form of value. -/
def jsonConst (s : List Char) : Option (Json × List Char) :=
  match eatLit (tl "null") s with
  | some r => some (.null, r)
  | none =>
  match eatLit (tl "true") s with
  | some r => some (.bool true, r)
  | none =>
  match eatLit (tl "false") s with
  | some r => some (.bool false, r)
  | none =>
  match eatLit (tl "NaN") s with
  | some r => some (.nan, r)
  | none =>
  match eatLit (tl "Infinity") s with
  | some r => some (.inf false, r)
  | none =>
  match eatLit (tl "-Infinity") s with
  | some r => some (.inf true, r)
  | none => none

/-- Decode one character following a backslash inside a JSON string.
The `\uXXXX` form does not occur in this codebase and is left out of the
modeled grammar. -/
def escChar (e : Char) : Option Char :=
  if e = 'n' then some '\n'
  else if e = 't' then some '\t'
  else if e = 'r' then some '\r'
  else if e = 'b' then some '\x08'
  else if e = 'f' then some '\x0c'
  else if e = '"' ∨ e = '\\' ∨ e = '/' then some e
  else none

/-- Parse the remainder of a JSON string literal, the opening quote already
consumed. Unescaped control characters are rejected, as in strict-mode
`json.loads`. Returns the decoded characters and the rest of the input. -/
def parseJStr : List Char → Option (List Char × List Char)
  | [] => none
  | '"' :: rest => some ([], rest)
  | '\\' :: e :: rest => do
    let c ← escChar e
    let (s, r) ← parseJStr rest
    pure (c :: s, r)
  | '\\' :: [] => none
  | c :: rest =>
    if c.toNat < 0x20 then none
    else do
      let (s, r) ← parseJStr rest
      pure (c :: s, r)

/-- Read a run of decimal digits, returning their value, count and the rest. -/
def readDigits : List Char → Nat → Nat → Nat × Nat × List Char
  | c :: rest, acc, n =>
    if c.isDigit then readDigits rest (acc * 10 + (c.toNat - '0'.toNat)) (n + 1)
    else (acc, n, c :: rest)
  | [], acc, n => (acc, n, [])

/-- Parse a JSON number starting at a minus sign or digit, following the
JSON grammar (no leading zeros, optional fraction and exponent). A literal
with a fraction or exponent becomes `Json.fnum`, an integer literal becomes
`Json.num`. -/
def parseNumber (s : List Char) : Option (Json × List Char) :=
  let (neg, s1) := match s with
    | '-' :: r => (true, r)
    | r => (false, r)
  match s1 with
  | [] => none
  | c :: _ =>
    if ¬ c.isDigit then none
    else
      let (ip, ipn, s2) := readDigits s1 0 0
      -- JSON forbids a leading zero in front of further digits
      if ipn = 0 ∨ (c = '0' ∧ ipn > 1) then none
      else
        let (frac, fracn, s3) := match s2 with
          | '.' :: r =>
            let (f, fn, r2) := readDigits r 0 0
            (f, fn, r2)
          | r => (0, 0, r)
        let hasFrac : Bool := match s2 with | '.' :: _ => true | _ => false
        -- a dot must be followed by at least one digit
        if hasFrac ∧ fracn = 0 then none
        else
          let (hasExp, expNeg, ev, evn, s4) :=
            match s3 with
            | 'e' :: r | 'E' :: r =>
              let (esign, r1) := match r with
                | '+' :: r2 => (false, r2)
                | '-' :: r2 => (true, r2)
                | r2 => (false, r2)
              let (e, en, r2) := readDigits r1 0 0
              (true, esign, e, en, r2)
            | r => (false, false, 0, 0, r)
          if hasExp ∧ evn = 0 then none
          else
            let mant : Int := (if neg then -1 else 1) * (ip * 10 ^ fracn + frac)
            let ex : Int := (if expNeg then -(ev : Int) else (ev : Int)) - fracn
            if hasFrac ∨ hasExp then some (.fnum mant ex, s4)
            else some (.num (if neg then -(ip : Int) else (ip : Int)), s4)

/-- Insert a key into a dict the way `d[k] = v` behaves in Python: an
existing key keeps its position but takes the new value, a new key is
appended. -/
def dinsert (kvs : List (List Char × Json)) (k : List Char) (v : Json) :
    List (List Char × Json) :=
  match kvs with
  | [] => [(k, v)]
  | (k0, v0) :: rest =>
    if k0 = k then (k0, v) :: rest else (k0, v0) :: dinsert rest k v

/-- Collapse duplicate JSON object keys in insertion order, the way building
a Python dict member by member does: first occurrence keeps its position,
last occurrence keeps its value. -/
def dedupKeys (pairs : List (List Char × Json)) : List (List Char × Json) :=
  pairs.foldl (fun d kv => dinsert d kv.1 kv.2) []

mutual

/-- Fueled recursive-descent parser for one JSON value, mirroring
`json.loads` (including the `NaN`/`Infinity` constants it accepts by
default). Fuel only bounds nesting and element recursion; callers pass
enough fuel that it never runs out on real input. -/
def parseJValue : Nat → List Char → Option (Json × List Char)
  | 0, _ => none
  | fuel + 1, s =>
    match jsonConst (skipWs s) with
    | some vr => some vr
    | none =>
    match skipWs s with
    | '"' :: r => (parseJStr r).map fun (str, rest) => (.str str, rest)
    | '[' :: r =>
      (match skipWs r with
       | ']' :: r2 => some (.arr [], r2)
       | r2 => (parseArrayElems fuel r2).map fun (vs, rest) => (.arr vs, rest))
    | '{' :: r =>
      (match skipWs r with
       | '}' :: r2 => some (.obj [], r2)
       | r2 => (parseObjMembers fuel r2).map fun (kvs, rest) => (.obj (dedupKeys kvs), rest))
    | c :: r =>
      if c = '-' ∨ c.isDigit then parseNumber (c :: r) else none
    | [] => none

/-- Comma-separated JSON array elements up to the closing bracket. A comma
must be followed by another element, so a trailing comma fails, exactly as
in `json.loads`. -/
def parseArrayElems : Nat → List Char → Option (List Json × List Char)
  | 0, _ => none
  | fuel + 1, s => do
    let (v, r) ← parseJValue fuel s
    match skipWs r with
    | ',' :: r2 => do
      let (vs, r3) ← parseArrayElems fuel r2
      pure (v :: vs, r3)
    | ']' :: r2 => pure ([v], r2)
    | _ => none

/-- Comma-separated JSON object members up to the closing brace. After a
comma only a quoted key may follow, so a trailing comma before the brace
fails, exactly as in `json.loads`. Members are returned in source order and
collapsed by the caller via `dedupKeys`. -/
def parseObjMembers : Nat → List Char → Option (List (List Char × Json) × List Char)
  | 0, _ => none
  | fuel + 1, s =>
    match skipWs s with
    | '"' :: r => do
      let (k, r1) ← parseJStr r
      match skipWs r1 with
      | ':' :: r2 => do
        let (v, r3) ← parseJValue fuel r2
        match skipWs r3 with
        | ',' :: r4 => do
          let (kvs, r5) ← parseObjMembers fuel r4
          pure ((k, v) :: kvs, r5)
        | '}' :: r4 => pure ([(k, v)], r4)
        | _ => none
      | _ => none
    | _ => none

end

/-- The embedding of `json.loads`: parse one value and require only
whitespace after it, otherwise fail (the `Extra data` error). `none` models
`json.JSONDecodeError`. -/
def jsonLoads (s : List Char) : Option Json :=
  match parseJValue (2 * s.length + 8) s with
  | some (v, rest) => if skipWs rest = [] then some v else none
  | none => none

/-- Fueled rendering of a JSON-derived value the way Python `repr`/`str`
prints containers (single-quoted strings, bracketed lists, braced dicts).
Number formatting of floats is simplified; no claim in this development
inspects a rendered container or float. -/
def pyReprF : Nat → Json → List Char
  | _, .null => tl "None"
  | _, .bool true => tl "True"
  | _, .bool false => tl "False"
  | _, .num n => tl (toString n)
  | _, .fnum m e => tl (toString m) ++ ['e'] ++ tl (toString e)
  | _, .nan => tl "nan"
  | _, .inf false => tl "inf"
  | _, .inf true => tl "-inf"
  | _, .str s => '\x27' :: (s ++ ['\x27'])
  | 0, _ => []
  | fuel + 1, .arr xs =>
    '[' :: (List.intercalate (tl ", ") (xs.map (pyReprF fuel)) ++ [']'])
  | fuel + 1, .obj kvs =>
    '\x7b' ::
      (List.intercalate (tl ", ")
        (kvs.map fun kv => pyReprF fuel (.str kv.1) ++ tl ": " ++ pyReprF fuel kv.2) ++
        ['\x7d'])

/-- Python `str(x)` for a JSON-derived value: a string renders as itself,
anything else as its repr. -/
def pyStr (j : Json) : List Char :=
  match j with
  | .str s => s
  | j => pyReprF 1000 j

/-- Dict lookup, `d.get(k)`. Fields are duplicate-free, so first match. -/
def jget (kvs : List (List Char × Json)) (k : List Char) : Option Json :=
  match kvs with
  | [] => none
  | (k0, v) :: rest => if k0 = k then some v else jget rest k

/-- The `obj.get(k1) or obj.get(k2) or ... or dflt` idiom: the value of the
first key that is present with a truthy value, else the default. A missing
key contributes `None`, which is falsy, so the chain moves on. -/
def getChain (kvs : List (List Char × Json)) (keys : List (List Char)) (dflt : Json) : Json :=
  match keys with
  | [] => dflt
  | k :: rest =>
    match jget kvs k with
    | some v => if pyTruthy v then v else getChain kvs rest dflt
    | none => getChain kvs rest dflt

/-- Whether a JSON-derived value is hashable in Python (usable as a dict
key): everything except lists and dicts. -/
def jsonHashable : Json → Bool
  | .arr _ => false
  | .obj _ => false
  | _ => true

/-- One element of `dict(iterable)` construction: the element must iterate
to exactly two items. A two-element list gives a pair (key must be
hashable), a two-character string gives two one-character strings, a
two-key dict gives its two keys. Everything else raises `TypeError` (not
iterable) or `ValueError` (wrong length), as Python does. -/
def pyDictElem : Json → Except PyErr (Json × Json)
  | .arr [k, v] => if jsonHashable k then .ok (k, v) else .error .typeError
  | .arr _ => .error .valueError
  | .str [c1, c2] => .ok (.str [c1], .str [c2])
  | .str _ => .error .valueError
  | .obj [(k1, _), (k2, _)] => .ok (.str k1, .str k2)
  | .obj _ => .error .valueError
  | _ => .error .typeError

/-- Insert into a Python dict with arbitrary (JSON-derived) keys; used for
`dict(iterable)` so that a repeated key keeps its first position and last
value. Key equality is structural; Python numeric cross-type equality for
exotic keys is not modeled (no claim exercises it). -/
def dinsertJ (kvs : List (Json × Json)) (k : Json) (v : Json) : List (Json × Json) :=
  match kvs with
  | [] => [(k, v)]
  | (k0, v0) :: rest =>
    if pyReprF 1000 k0 = pyReprF 1000 k then (k0, v) :: rest
    else (k0, v0) :: dinsertJ rest k v

/-- The embedding of `dict(args)` in `_parse_action`: a dict is copied, a
list or string or dict is converted element by element, scalars raise
`TypeError`. -/
def pyDict : Json → Except PyErr (List (Json × Json))
  | .obj kvs => .ok (kvs.map fun kv => (.str kv.1, kv.2))
  | .arr xs => do
    let pairs ← xs.mapM pyDictElem
    pure (pairs.foldl (fun d kv => dinsertJ d kv.1 kv.2) [])
  | .str [] => .ok []
  | .str (_ :: _) => .error .valueError
  | _ => .error .typeError

/-- ASCII word character for the `\w` of the fence-stripping regex. -/
def wordChar (c : Char) : Bool := c.isAlphanum ∨ c = '_'

/-- The substitution `re.sub` of pattern `^```\w*\n?` with the empty string: strip one leading Markdown code
fence, its language tag and one following newline. -/
def stripFenceOpen (s : List Char) : List Char :=
  match s with
  | '`' :: '`' :: '`' :: rest =>
    let rest2 := rest.dropWhile wordChar
    match rest2 with
    | '\n' :: r => r
    | _ => rest2
  | _ => s

/-- The substitution `re.sub` of pattern `\n?```$` with the empty string: strip one trailing Markdown code
fence and one newline directly before it. The input has already been
stripped, so the end anchor is the true end of the string. -/
def stripFenceClose (s : List Char) : List Char :=
  match s.reverse with
  | '`' :: '`' :: '`' :: rest =>
    (match rest with
     | '\n' :: r2 => r2
     | _ => rest).reverse
  | _ => s

/-- Whitespace class `\s` of Python regexes (ASCII part). -/
def pyReWs (c : Char) : Bool :=
  c = ' ' ∨ c = '\t' ∨ c = '\n' ∨ c = '\r' ∨ c = '\x0c' ∨ c = '\x0b'

/-- Try to match `"<key>"\s*:\s*"([^"]+)"` at the current position and
return the capture. -/
def matchToolKey (key : List Char) (s : List Char) : Option (List Char) := do
  let r1 ← eatLit ('"' :: (key ++ ['"'])) s
  let r2 := r1.dropWhile pyReWs
  let r3 ← eatLit [':'] r2
  let r4 := r3.dropWhile pyReWs
  let r5 ← eatLit ['"'] r4
  let val := r5.takeWhile (fun c => c ≠ '"')
  let r6 := r5.dropWhile (fun c => c ≠ '"')
  match val, r6 with
  | _ :: _, '"' :: _ => some val
  | _, _ => none

/-- The search `re.search` for the pattern `"(?:tool|name|function)"\s*:\s*"([^"]+)"`:
scan left to right, trying the alternatives in order at each position. -/
def regexSearchTool : List Char → Option (List Char)
  | [] => none
  | s@(_ :: rest) =>
    match matchToolKey (tl "tool") s with
    | some v => some v
    | none =>
      match matchToolKey (tl "name") s with
      | some v => some v
      | none =>
        match matchToolKey (tl "function") s with
        | some v => some v
        | none => regexSearchTool rest

/-- The lenient preprocessing `_parse_action` applies before `json.loads`:
strip, remove one leading/trailing Markdown fence, strip again. Note that
the source has no removal of trailing commas. -/
def lenientPre (content : List Char) : List Char :=
  pyStrip (stripFenceClose (stripFenceOpen (pyStrip content)))

/-- The embedding of `StreamParser._parse_action`. Returns
`.ok (some (tool, args))` when an action is recovered (by JSON parse or by
the regex fallback), `.ok none` when the parse fails (the caller then fires
`on_error`), and `.error _` when an exception escapes: the `try` catches
only `json.JSONDecodeError`, so `obj.get` on a non-dict raises
`AttributeError` and `dict(args)` on a non-coercible value raises
`TypeError`/`ValueError`, both uncaught. -/
def parseActionE (content0 : List Char) : Except PyErr (Option (List Char × List (Json × Json))) :=
  let content := lenientPre content0
  match jsonLoads content with
  | some j =>
    match j with
    | .obj kvs =>
      let tool := getChain kvs [tl "tool", tl "name", tl "function"] .null
      let args0 := getChain kvs [tl "args", tl "arguments", tl "parameters"] (.obj [])
      let args1 := match args0 with
        | .str s =>
          (match jsonLoads s with
           | some v => v
           | none => .obj [])
        | v => v
      if pyTruthy tool then
        match pyDict args1 with
        | .ok d => .ok (some (pyStr tool, d))
        | .error e => .error e
      else .ok none
    | _ => .error .attributeError
  | none =>
    match regexSearchTool content with
    | some t => .ok (some (t, []))
    | none => .ok none

/-! ## The incremental tag-protocol state machine (`StreamParser`) -/

/-- Parser events, one per callback of `StreamParser`:
`on_text`, `on_thought`, `on_action`, `on_endofop`, `on_error`. -/
inductive Event where
  | text (s : List Char)
  | thought (s : List Char)
  | action (tool : List Char) (args : List (Json × Json))
  | endofop (s : List Char)
  | parseError (msg : List Char)

/-- The four parser states. -/
inductive PMode where
  | text
  | thought
  | action
  | endofop
deriving DecidableEq

/-- Mutable parser fields: `_state`, `_tag_buf`, `_content`. The source
also carries `_buffer`, which accumulates the raw stream but is never read
anywhere; it is omitted. -/
structure ParserSt where
  state : PMode
  tagBuf : List Char
  content : List Char

/-- The tag table `TAGS`, in its declared priority order. -/
def TAGS : List (List Char × List Char × PMode) :=
  [(tl "<thought>", tl "</thought>", .thought),
   (tl "<action>", tl "</action>", .action),
   (tl "<ENDOFOP>", tl "</ENDOFOP>", .endofop)]

/-- `str.endswith` on character lists. -/
def endsWithL (l suf : List Char) : Bool :=
  l.reverse.take suf.length == suf.reverse

/-- Find the first tag in `TAGS` whose open tag is a suffix of the buffer,
returning that open tag and the state it opens. -/
def findOpenTag (tb : List Char) : Option (List Char × PMode) :=
  match TAGS.find? (fun t => endsWithL tb t.1) with
  | some (o, _, st) => some (o, st)
  | none => none

/-- The close tag belonging to a content state. -/
def closeTagOf : PMode → List Char
  | .thought => tl "</thought>"
  | .action => tl "</action>"
  | .endofop => tl "</ENDOFOP>"
  | .text => []

/-- `max(len(t[0]) for t in TAGS)`. -/
def maxTagLen : Nat := (TAGS.map fun t => t.1.length).foldl Nat.max 0

/-- The embedding of `StreamParser._dispatch` as the list of events it
fires: exactly one for each content state (for an action, the parsed action
or a `ParseError` carrying the truncated raw content), none for `TEXT`
(the method falls through), or an uncaught exception escaping from
`_parse_action`. -/
def dispatchEvs (st : PMode) (content : List Char) : Except PyErr (List Event) :=
  match st with
  | .text => .ok []
  | .thought => .ok [.thought content]
  | .endofop => .ok [.endofop content]
  | .action =>
    match parseActionE content with
    | .ok (some (t, a)) => .ok [.action t a]
    | .ok none => .ok [.parseError (tl "Failed to parse action: " ++ content.take 200)]
    | .error e => .error e

/-- One character step, `StreamParser._process_char`. Returns the events
fired during the step and either the successor state or the exception that
escaped `_dispatch` (in which case the assignments after the dispatch call
never execute). In `TEXT`, the character joins the lookahead buffer; an
open-tag suffix match flushes the preceding text and enters the content
state; otherwise, once the buffer exceeds the longest tag length plus two,
its oldest character is flushed as text. In a content state, the character
joins the content buffer and a close-tag suffix match dispatches the
stripped inner content and returns to `TEXT`. -/
def processChar (p : ParserSt) (ch : Char) : List Event × Except PyErr ParserSt :=
  if p.state = .text then
    let tb := p.tagBuf ++ [ch]
    match findOpenTag tb with
    | some (otag, st) =>
      let pre := tb.take (tb.length - otag.length)
      ((if pre = [] then [] else [.text pre]), .ok ⟨st, [], []⟩)
    | none =>
      if tb.length > maxTagLen + 2 then
        ([.text (tb.take 1)], .ok ⟨.text, tb.drop 1, p.content⟩)
      else
        ([], .ok ⟨.text, tb, p.content⟩)
  else
    let ct := p.content ++ [ch]
    let ctag := closeTagOf p.state
    if endsWithL ct ctag then
      let inner := ct.take (ct.length - ctag.length)
      match dispatchEvs p.state (pyStrip inner) with
      | .ok evs => (evs, .ok ⟨.text, [], []⟩)
      | .error e => ([], .error e)
    else
      ([], .ok ⟨p.state, p.tagBuf, ct⟩)

/-- `StreamParser.feed`: iterate `_process_char` over the characters of one
fragment. An escaping exception stops the iteration; the events fired
before it stand. -/
def feedChars (p : ParserSt) : List Char → List Event × Except PyErr ParserSt
  | [] => ([], .ok p)
  | c :: rest =>
    match processChar p c with
    | (evs, .error e) => (evs, .error e)
    | (evs, .ok p2) =>
      let (evs2, r) := feedChars p2 rest
      (evs ++ evs2, r)

/-- `StreamParser.flush`: emit the TEXT-state lookahead buffer as one final
text event; content held in a non-TEXT state is only warned about, no event
fires for it. -/
def flushEvents (p : ParserSt) : List Event :=
  if p.tagBuf ≠ [] ∧ p.state = .text then [.text p.tagBuf] else []

/-- The initial parser state. -/
def initP : ParserSt := ⟨.text, [], []⟩

/-- Feed a list of fragments in order, as successive `feed` calls. An
escaping exception stops the run. -/
def feedFrags (p : ParserSt) : List (List Char) → List Event × Except PyErr ParserSt
  | [] => ([], .ok p)
  | f :: rest =>
    match feedChars p f with
    | (evs, .error e) => (evs, .error e)
    | (evs, .ok p2) =>
      let (evs2, r) := feedFrags p2 rest
      (evs ++ evs2, r)

/-- All events of feeding one whole stream from the initial state and then
flushing (the flush is skipped when an exception escaped the feed, as the
caller never reaches it). -/
def eventsOfStream (s : List Char) : List Event :=
  match feedChars initP s with
  | (evs, .ok p) => evs ++ flushEvents p
  | (evs, .error _) => evs

/-- All events of feeding the same stream as a list of fragments and then
flushing. -/
def eventsOfFragments (frags : List (List Char)) : List Event :=
  match feedFrags initP frags with
  | (evs, .ok p) => evs ++ flushEvents p
  | (evs, .error _) => evs

/-! ## The per-task step loop (`Agent.run`) -/

/-- A chat message: role and content. -/
structure Msg where
  role : List Char
  content : List Char
deriving DecidableEq

/-- Escape one character for a JSON string literal as `json.dumps` does.
Control characters other than the named escapes would render as `\u00XX`;
they do not occur in any input considered here. -/
def escJChar (c : Char) : List Char :=
  if c = '"' then ['\\', '"']
  else if c = '\\' then ['\\', '\\']
  else if c = '\n' then ['\\', 'n']
  else if c = '\t' then ['\\', 't']
  else if c = '\r' then ['\\', 'r']
  else if c = '\x08' then ['\\', 'b']
  else if c = '\x0c' then ['\\', 'f']
  else [c]

/-- A JSON string literal as `json.dumps` renders it. -/
def jStrLit (s : List Char) : List Char :=
  '"' :: s.foldr (fun c acc => escJChar c ++ acc) ['"']

/-- Lexicographic comparison of strings by code point, the order `sorted`
and `sort_keys=True` use. -/
def lexLe : List Char → List Char → Bool
  | a :: as, b :: bs => if a = b then lexLe as bs else decide (a.toNat < b.toNat)
  | as, _ => as.isEmpty

/-- The string `json.dumps` uses for a dict key: strings stay, scalar keys
are coerced. Container keys are not serializable in Python (`dumps` raises);
they never reach this function in any statement below. -/
def jkeyStr : Json → List Char
  | .str s => s
  | .num n => tl (toString n)
  | .bool true => tl "true"
  | .bool false => tl "false"
  | .null => tl "null"
  | j => pyReprF 1000 j

/-- Insertion step for sorting dict entries by key string. -/
def insSortedJ (x : Json × Json) : List (Json × Json) → List (Json × Json)
  | [] => [x]
  | y :: ys =>
    if lexLe (jkeyStr x.1) (jkeyStr y.1) then x :: y :: ys else y :: insSortedJ x ys

/-- Insertion step for sorting nested JSON object fields by key. -/
def insSortedK (x : List Char × Json) : List (List Char × Json) → List (List Char × Json)
  | [] => [x]
  | y :: ys => if lexLe x.1 y.1 then x :: y :: ys else y :: insSortedK x ys

/-- Fueled `json.dumps(v, sort_keys=True)` for a JSON-derived value, with
the default separators. Float formatting is simplified; no signature in any
statement below contains a float. -/
def jdumpF : Nat → Json → List Char
  | _, .null => tl "null"
  | _, .bool true => tl "true"
  | _, .bool false => tl "false"
  | _, .num n => tl (toString n)
  | _, .fnum m e => tl (toString m) ++ ('e' :: tl (toString e))
  | _, .nan => tl "NaN"
  | _, .inf false => tl "Infinity"
  | _, .inf true => tl "-Infinity"
  | _, .str s => jStrLit s
  | 0, _ => []
  | fuel + 1, .arr xs =>
    '[' :: (List.intercalate (tl ", ") (xs.map (jdumpF fuel)) ++ [']'])
  | fuel + 1, .obj kvs =>
    let sorted := kvs.foldl (fun acc kv => insSortedK kv acc) []
    '\x7b' ::
      (List.intercalate (tl ", ")
        (sorted.map fun kv => jStrLit kv.1 ++ tl ": " ++ jdumpF fuel kv.2) ++ ['\x7d'])

/-- `json.dumps(args, sort_keys=True)` for the parsed args dict, used to
canonicalize an action signature. -/
def dumpsSorted (args : List (Json × Json)) : List Char :=
  let sorted := args.foldl (fun acc kv => insSortedJ kv acc) []
  '\x7b' ::
    (List.intercalate (tl ", ")
      (sorted.map fun kv => jStrLit (jkeyStr kv.1) ++ tl ": " ++ jdumpF 1000 kv.2) ++
      ['\x7d'])

/-- An action signature: `(tool_name, json.dumps(tool_args, sort_keys=True))`. -/
abbrev Sig : Type := List Char × List Char

/-- `action_history.count(action_sig)`. -/
def countSig : List Sig → Sig → Nat
  | [], _ => 0
  | x :: xs, s => (if x = s then 1 else 0) + countSig xs s

/-- `parser.feed(token)` for each fragment, stopping as soon as an action
or end-of-task event has fired, then `parser.flush()`; an exception
escaping the feed aborts the collection (the caller turns it into a stream
error result without flushing). This is the stream-consumption loop of one
`Agent.run` step. -/
def collectGo : ParserSt → List (List Char) → List Event → Except PyErr (List Event)
  | p, [], acc => .ok (acc ++ flushEvents p)
  | p, f :: rest, acc =>
    match feedChars p f with
    | (_, .error e) => .error e
    | (evs, .ok p2) =>
      let acc2 := acc ++ evs
      if (acc2.any fun e => match e with | .action _ _ => true | _ => false) ∨
         (acc2.any fun e => match e with | .endofop _ => true | _ => false) then
        .ok (acc2 ++ flushEvents p2)
      else collectGo p2 rest acc2

/-- One step of stream collection from a fresh parser. -/
def collectStep (frags : List (List Char)) : Except PyErr (List Event) :=
  collectGo initP frags []

/-- `endofop_summary[0]`: the first end-of-task event, if any fired. -/
def firstEndEv : List Event → Option (List Char)
  | [] => none
  | .endofop s :: _ => some s
  | _ :: rest => firstEndEv rest

/-- `action_pending[0]`: the first action event, if any fired. -/
def firstActionEv : List Event → Option (List Char × List (Json × Json))
  | [] => none
  | .action t a :: _ => some (t, a)
  | _ :: rest => firstActionEv rest

/-- `"".join(full_response)`: the concatenation of the text events, which
is what the assistant transcript message carries. -/
def assembledText : List Event → List Char
  | [] => []
  | .text s :: rest => s ++ assembledText rest
  | _ :: rest => assembledText rest

/-- The corrective repetition nudge `Agent.run` appends when
`repeat_count >= 3`, verbatim from the source f-string. -/
def nudgeMsg (tool : List Char) (cnt : Nat) : Msg :=
  ⟨tl "user",
   tl "You have already called " ++ tool ++ tl " with these arguments " ++
     tl (toString cnt) ++
     tl (" times. If the result wasn\x27t what you expected, try a different " ++
       "approach or tool. If you are stuck, think about what\x27s missing.")⟩

/-- The stuck-loop abort result string. -/
def stuckMsg (tool : List Char) : List Char :=
  tl "[ERROR] Agent got stuck in a loop calling " ++ tool ++ tl "."

/-- The synthetic user message carrying a tool result. -/
def toolResMsg (tool result : List Char) : Msg :=
  ⟨tl "user", tl "[Tool result for " ++ tool ++ tl "]\n" ++ result⟩

/-- The nudge appended when the model produced neither action nor
end-of-task. -/
def contNudgeMsg : Msg :=
  ⟨tl "user",
   tl ("Continue. Use a <action> tool call to make progress, " ++
     "or use <ENDOFOP> if the task is fully complete.")⟩

/-- An assistant transcript message. -/
def asstMsg (content : List Char) : Msg := ⟨tl "assistant", content⟩

/-- The budget-exhaustion result string. -/
def maxStepsResult : List Char :=
  tl "[MAX STEPS] Agent stopped without completing the task."

/-- The stream-failure result. The source interpolates the exception text;
the constant head of the message suffices for every statement below. -/
def streamFailResult : List Char := tl "[ERROR] Stream failed"

/-- Outcome of one `Agent.run` invocation: the returned string, the final
local `messages` list, and a ghost counter of how many repetition nudges
were injected (each increment coincides with appending one `nudgeMsg`). -/
structure RunOut where
  result : List Char
  messages : List Msg
  nudges : Nat

/-- The step loop of `Agent.run`, recursing on the remaining step budget.
`streams` gives the fragment stream the model backend yields at each step
number (the backend is a black-box capability, so any behavior corresponds
to some such oracle); `exec` is `_exec_tool`, which catches every tool
failure internally and totally returns a string. Per step: collect events
until an action or end-of-task fires; end-of-task returns its summary;
an action is counted by signature, a nudge is appended whenever the count
reaches 3 or more, the run aborts once it reaches 5, otherwise the tool
runs and its result is injected; with neither, a continue-nudge is
appended. -/
def runAux (streams : Nat → List (List Char))
    (exec : List Char → List (Json × Json) → List Char) :
    Nat → Nat → List Msg → List Sig → Nat → RunOut
  | _, 0, msgs, _, nudges => ⟨maxStepsResult, msgs, nudges⟩
  | step, fuel + 1, msgs, hist, nudges =>
    match collectStep (streams step) with
    | .error _ => ⟨streamFailResult, msgs, nudges⟩
    | .ok evs =>
      let assembled := assembledText evs
      match firstEndEv evs with
      | some summary => ⟨summary, msgs ++ [asstMsg assembled], nudges⟩
      | none =>
        match firstActionEv evs with
        | some (tool, args) =>
          let sig : Sig := (tool, dumpsSorted args)
          let hist2 := hist ++ [sig]
          let cnt := countSig hist2 sig
          let msgs2 := if cnt ≥ 3 then msgs ++ [nudgeMsg tool cnt] else msgs
          let nudges2 := if cnt ≥ 3 then nudges + 1 else nudges
          if cnt ≥ 5 then ⟨stuckMsg tool, msgs2, nudges2⟩
          else
            let result := exec tool args
            runAux streams exec (step + 1) fuel
              (msgs2 ++ [asstMsg assembled, toolResMsg tool result]) hist2 nudges2
        | none =>
          runAux streams exec (step + 1) fuel
            (msgs ++ [asstMsg assembled, contNudgeMsg]) hist nudges

/-- `Agent.run` from its initial context (system prompt and task message,
passed in already built) with budget `maxSteps = config.get("max_steps", 30)`. -/
def agentRun (initMsgs : List Msg) (streams : Nat → List (List Char))
    (exec : List Char → List (Json × Json) → List Char) (maxSteps : Nat) : RunOut :=
  runAux streams exec 1 maxSteps initMsgs [] 0

/-! ## The goal-level plan/execute/verify/replan loop (`LoopEngine`) -/

/-- Test whether a literal occurs at the start of the input. -/
def startsL (l pre : List Char) : Bool := (eatLit pre l).isSome

/-- Python `needle in hay` substring test. -/
def containsSub (hay needle : List Char) : Bool :=
  match hay with
  | [] => needle.isEmpty
  | _ :: rest => startsL hay needle || containsSub rest needle

/-- The search `re.search` for the pattern of a brace pair with anything between: the substring from the first opening
brace to the last closing brace after it, if both exist. -/
def extractBraces (s : List Char) : Option (List Char) :=
  let pre := s.dropWhile fun c => c ≠ '\x7b'
  match pre with
  | [] => none
  | _ :: _ =>
    let revTail := pre.reverse.dropWhile fun c => c ≠ '\x7d'
    match revTail with
    | [] => none
    | _ :: _ => some revTail.reverse

/-- The fail-open reason string `f"Verification skipped ({e})"`. -/
def skipReason (detail : List Char) : Json :=
  .str (tl "Verification skipped (" ++ detail ++ tl ")")

/-- The embedding of `LoopEngine._verify`, as a function of the verifier
response. `resp` is the outcome of the `llm.complete` call: `.ok raw` the
raw text, `.error e` a raised transport fault carrying the exception text.
The enclosing `try` catches every exception — both a transport fault and a
`json.loads` failure on the extracted braces land in the fail-open
`(True, "Verification skipped (...)", "")` return. With no brace pair in
the response, the heuristic fallback checks the evidence for completion
markers. -/
def verifyCall (resp : Except (List Char) (List Char)) (evidence : List Char) :
    Bool × Json × Json :=
  match resp with
  | .error e => (true, skipReason e, .str [])
  | .ok raw =>
    match extractBraces raw with
    | some sub =>
      match jsonLoads sub with
      | some (.obj kvs) =>
        ((match jget kvs (tl "success") with
          | some v => pyTruthy v
          | none => false),
         (match jget kvs (tl "reason") with | some v => v | none => .str []),
         (match jget kvs (tl "fix_hint") with | some v => v | none => .str []))
      | _ => (true, skipReason (tl "JSONDecodeError"), .str [])
    | none =>
      if containsSub evidence (tl "[DONE]") ∨ containsSub evidence (tl "Task completed") then
        (true, .str (tl "Task appears completed (fallback check)"), .str [])
      else
        (false, .str (tl "Could not parse verifier response"),
         .str (tl "Try a simpler approach"))

/-- A sub-task dict as the planner produces it and the retry loop mutates
it: `id`, `task`, `verify`, and the keys written later (`fix_hint`,
`_evidence`, `_status`). -/
structure STask where
  sid : Int
  descr : List Char
  verify : List Char
  fixHint : Option Json
  evidence : List Char
  status : Option (List Char)

/-- A fresh sub-task as planning yields it. -/
def mkTask (sid : Int) (descr verify : List Char) : STask :=
  ⟨sid, descr, verify, none, [], none⟩

/-- Oracles for every outside interaction of one `run_goal` invocation,
one slot per call site: the parsed planner result per cycle, the parsed
replanner result per cycle, and per (cycle, task index, attempt) the
sub-task evidence produced by `_run_subtask` and the verifier response;
plus the whole-goal verifier response per cycle. The LLM is a black-box
capability, so any behavior corresponds to some oracle. -/
structure GoalOracles where
  plans : Nat → List STask
  replans : Nat → List STask
  subEv : Nat → Nat → Nat → List Char
  subVerifyResp : Nat → Nat → Nat → Except (List Char) (List Char)
  goalVerifyResp : Nat → Except (List Char) (List Char)

/-- The per-sub-task retry loop body (`for attempt in range(1, max_retries+1)`):
run the sub-task, verify; on success store the evidence and mark done; on
failure store the fix hint and retry. Returns the mutated task and whether
it succeeded. -/
def retryGo (G : GoalOracles) (c idx : Nat) :
    Nat → Nat → STask → STask × Bool
  | _, 0, t => (t, false)
  | attempt, fuel + 1, t =>
    let ev := G.subEv c idx attempt
    let (ok, _, fix) := verifyCall (G.subVerifyResp c idx attempt) ev
    if ok then ({ t with evidence := ev, status := some (tl "done") }, true)
    else retryGo G c idx (attempt + 1) fuel { t with fixHint := some fix }

/-- The whole retry loop for one sub-task, attempts numbered from 1. -/
def retrySub (G : GoalOracles) (c idx maxRetries : Nat) (t : STask) : STask × Bool :=
  retryGo G c idx 1 maxRetries t

/-- Execute the sub-tasks of one plan in order: a success appends the task
to `completed` and moves on; exhausted retries mark it failed, append it to
`failed` and abandon the rest of the plan (`all_passed = False`). The stop
flag is polled here in the source; cancellation is outside the claims and
modeled as never set. -/
def execPlan (G : GoalOracles) (c maxRetries : Nat) :
    List STask → Nat → List STask → List STask → Bool × List STask × List STask
  | [], _, comp, fail => (true, comp, fail)
  | t :: rest, idx, comp, fail =>
    let (t2, ok) := retrySub G c idx maxRetries t
    if ok then execPlan G c maxRetries rest (idx + 1) (comp ++ [t2]) fail
    else (false, comp, fail ++ [{ t2 with status := some (tl "failed") }])

/-- The evidence string `_verify_goal` builds from the completed list. -/
def goalEvidence (comp : List STask) : List Char :=
  List.intercalate ['\n']
    (comp.map fun t => tl "Completed: " ++ t.descr ++ tl " — " ++ t.evidence.take 200)

/-- The terminal success message of `run_goal`. -/
def goalSuccessMsg (cycle : Nat) (reason : Json) : List Char :=
  tl "Goal achieved in " ++ tl (toString cycle) ++ tl " cycle(s): " ++ pyStr reason

/-- The cycle-exhaustion message of `run_goal`. -/
def goalExhaustMsg (maxCycles : Nat) : List Char :=
  tl "Could not fully achieve goal after " ++ tl (toString maxCycles) ++
    tl " cycles. Check completed steps above."

/-- Outcome of `run_goal`: the returned string, the accumulated
completed/failed lists, plus two ghost traces used only in statements:
`executed` records for each cycle that got past planning the plan whose
sub-tasks were then executed, and `replansMade` records the result of each
`_replan` call (the source assigns it to `self.plan`, which the next
cycle overwrites with a fresh `self._plan(goal)` before any use). -/
structure GoalOut where
  result : List Char
  completed : List STask
  failed : List STask
  executed : List (Nat × List STask)
  replansMade : List (List STask)

/-- The cycle loop of `run_goal` (`for cycle in range(1, max_cycles+1)`).
An empty plan retries the next cycle; otherwise the plan is executed; if
every sub-task passed, the whole goal is verified: success returns, failure
calls `_replan` (recorded, then overwritten at the next cycle head) and
continues; a failed sub-task skips goal verification and continues. -/
def runGoalAux (G : GoalOracles) (maxCycles maxRetries : Nat) :
    Nat → Nat → List STask → List STask → List (Nat × List STask) →
      List (List STask) → GoalOut
  | _, 0, comp, fail, tr, rp => ⟨goalExhaustMsg maxCycles, comp, fail, tr, rp⟩
  | cycle, fuel + 1, comp, fail, tr, rp =>
    match G.plans cycle with
    | [] => runGoalAux G maxCycles maxRetries (cycle + 1) fuel comp fail tr rp
    | t0 :: trest =>
      let plan := t0 :: trest
      let tr2 := tr ++ [(cycle, plan)]
      let (allPassed, comp2, fail2) := execPlan G cycle maxRetries plan 0 comp fail
      if allPassed then
        let (ok, reason, _) := verifyCall (G.goalVerifyResp cycle) (goalEvidence comp2)
        if ok then ⟨goalSuccessMsg cycle reason, comp2, fail2, tr2, rp⟩
        else
          runGoalAux G maxCycles maxRetries (cycle + 1) fuel comp2 fail2 tr2
            (rp ++ [G.replans cycle])
      else runGoalAux G maxCycles maxRetries (cycle + 1) fuel comp2 fail2 tr2 rp

/-- `LoopEngine.run_goal`, cycles numbered from 1, with empty initial
completed/failed lists. -/
def runGoalM (G : GoalOracles) (maxCycles maxRetries : Nat) : GoalOut :=
  runGoalAux G maxCycles maxRetries 1 maxCycles [] [] [] []

/-! ## The sub-task frame (`LoopEngine._run_subtask`) -/

/-- The agent fields `_run_subtask` touches: the `"max_steps"` entry of
`agent.config` (`none` when the key is absent) and the `agent.on_tool_result`
hook. The hook type is abstract. -/
structure AgentView (H : Type) where
  maxStepsEntry : Option Nat
  onToolResult : Option H

/-- The evidence string `_run_subtask` assembles from the captured tool
results and the final run result. -/
def subtaskEvidence (toolResults : List (List Char × List Char)) (result : List Char) :
    List Char :=
  List.intercalate ['\n']
    ((toolResults.map fun nr => '[' :: (nr.1 ++ tl "]: " ++ nr.2.take 500)) ++
     [tl "[final_result]: " ++ result])

/-- The embedding of `_run_subtask` on the agent fields it mutates, for a
normal return: save `config.get("max_steps", 30)`, override the budget and
install the capturing hook, run the agent (`Agent.run` reads these fields
but never assigns them), then write the saved budget back and restore the
original hook. `capture` models the capturing closure; `toolResults` and
`runResult` are what the inner run produced. Returns the agent view after
the call together with the evidence string. -/
def runSubtaskM {H : Type} (a : AgentView H) (maxStepsPerTask : Nat)
    (capture : Option H → H) (toolResults : List (List Char × List Char))
    (runResult : List Char) : AgentView H × List Char :=
  let originalSteps := a.maxStepsEntry.getD 30
  let overridden : AgentView H := ⟨some maxStepsPerTask, some (capture a.onToolResult)⟩
  let restored : AgentView H := { overridden with
    maxStepsEntry := some originalSteps, onToolResult := a.onToolResult }
  (restored, subtaskEvidence toolResults runResult)

/-! ## Concrete data for the instantiated statements -/

/-- Sequential composition of a parser run result with a continuation,
used to state how `feedChars` splits across an append. -/
def seqPR (r1 : List Event × Except PyErr ParserSt)
    (k : ParserSt → List Event × Except PyErr ParserSt) :
    List Event × Except PyErr ParserSt :=
  match r1 with
  | (evs, .error e) => (evs, .error e)
  | (evs, .ok p) =>
    let (evs2, r) := k p
    (evs ++ evs2, r)

/-- The single-fragment action stream used by the repetition statements:
the model emits one identical action per step. -/
def c1Frag : List Char :=
  tl "<action>\x7b\x22tool\x22:\x22t\x22,\x22args\x22:\x7b\x7d\x7d</action>"

/-- The inner part of the `c1Frag` action block, up to but excluding the
final close-tag character (used to stage the evaluation). -/
def c1Mid : List Char :=
  tl "\x7b\x22tool\x22:\x22t\x22,\x22args\x22:\x7b\x7d\x7d</action"

/-- The content of the trailing-comma action block of the C2 scenario, up
to but excluding the final close-tag character:
`\n{"tool":"T","args":{"a":1},}\n</action`. -/
def c2Mid : List Char :=
  tl "\n\x7b\x22tool\x22:\x22T\x22,\x22args\x22:\x7b\x22a\x22:1\x7d,\x7d\n</action"

/-- The content of the `null` action block, up to but excluding the final
close-tag character. -/
def c3Mid : List Char := tl "null</action"

/-- The tasks of the replanning scenario. -/
def c4T1 : STask := mkTask 1 (tl "t1") (tl "v1")

def c4T2 : STask := mkTask 2 (tl "t2") (tl "v2")

def c4T2x : STask := mkTask 3 (tl "t2x") (tl "v2x")

/-- A verifier response accepting the sub-task. -/
def okResp : Except (List Char) (List Char) := .ok (tl "\x7b\x22success\x22: true\x7d")

/-- A verifier response rejecting, with a reason. -/
def noResp : Except (List Char) (List Char) :=
  .ok (tl "\x7b\x22success\x22: false, \x22reason\x22: \x22no\x22\x7d")

/-- Oracles for the replanning scenario: cycle 1 plans `[c4T1]`, which
passes, but whole-goal verification fails; the replanner returns `[c4T2x]`;
cycle 2 opens by planning afresh, yielding `[c4T2]`, which passes and the
goal verifies. -/
def c4G : GoalOracles where
  plans c := if c = 1 then [c4T1] else if c = 2 then [c4T2] else []
  replans _ := [c4T2x]
  subEv _ _ _ := tl "E"
  subVerifyResp _ _ _ := okResp
  goalVerifyResp c := if c = 1 then noResp else okResp

/-- Oracles for the retry scenario: the verifier rejects the first attempt
and accepts the second. -/
def c9G : GoalOracles where
  plans _ := []
  replans _ := []
  subEv _ _ a := tl "evidence-" ++ tl (toString a)
  subVerifyResp _ _ a := if a = 1 then .ok (tl "\x7b\x22success\x22: false\x7d") else okResp
  goalVerifyResp _ := .error []

/-! ## Theorems -/

theorem feedChars_append (xs : List Char) : ∀ (p : ParserSt) (ys : List Char),
    feedChars p (xs ++ ys) = seqPR (feedChars p xs) (fun p2 => feedChars p2 ys) := by
  induction xs with
  | nil =>
    intro p ys
    simp [feedChars, seqPR]
  | cons c rest ih =>
    intro p ys
    cases hpc : processChar p c with
    | mk evs r =>
      cases r with
      | error e =>
        simp only [List.cons_append, feedChars, hpc, seqPR]
      | ok p2 =>
        simp only [List.cons_append, feedChars, hpc, List.append_eq]
        rw [ih p2 ys]
        cases hfc : feedChars p2 rest with
        | mk evs2 r2 =>
          cases r2 with
          | error e2 => simp [seqPR]
          | ok p3 =>
            cases hfy : feedChars p3 ys with
            | mk evs3 r3 => simp [seqPR, hfy, List.append_assoc]

theorem feedFrags_flatten : ∀ (frags : List (List Char)) (p : ParserSt),
    feedFrags p frags = feedChars p frags.flatten := by
  intro frags
  induction frags with
  | nil => intro p; simp [feedFrags, feedChars, List.flatten]
  | cons f rest ih =>
    intro p
    simp only [List.flatten, feedChars_append, feedFrags]
    cases hf : feedChars p f with
    | mk evs r =>
      cases r with
      | error e => simp [seqPR]
      | ok p2 => simp [seqPR, ih p2]

/-- C5: for every input stream and every way of splitting it into
fragments, feeding the fragments in order through `feed` and then `flush`
yields exactly the same ordered event sequence, with the same payloads, as
feeding the whole stream as one fragment and then flushing. -/
theorem c5_fragmentation_invariance (frags : List (List Char)) :
    eventsOfFragments frags = eventsOfStream frags.flatten := by
  unfold eventsOfFragments eventsOfStream
  rw [feedFrags_flatten]

theorem processChar_tagBuf_le {p : ParserSt} {c : Char} {evs : List Event}
    {p2 : ParserSt} (hp : p.tagBuf.length ≤ maxTagLen + 2)
    (h : processChar p c = (evs, .ok p2)) : p2.tagBuf.length ≤ maxTagLen + 2 := by
  unfold processChar at h
  by_cases hs : p.state = .text
  · simp only [hs, if_pos, if_true] at h
    rcases hfo : findOpenTag (p.tagBuf ++ [c]) with _ | ⟨otag, st⟩ <;>
      simp only [hfo] at h
    · by_cases hlen : (p.tagBuf ++ [c]).length > maxTagLen + 2
      · simp only [hlen, if_pos, if_true] at h
        have h2 := congrArg Prod.snd h
        simp only at h2
        cases h2
        simp only [List.length_drop, List.length_append, List.length_cons,
          List.length_nil] at *
        omega
      · simp only [hlen, if_neg, if_false] at h
        have h2 := congrArg Prod.snd h
        simp only at h2
        cases h2
        simp only [List.length_append, List.length_cons, List.length_nil] at *
        omega
    · have h2 := congrArg Prod.snd h
      simp only at h2
      cases h2
      simp
  · simp only [hs, if_neg, if_false] at h
    by_cases hcl : endsWithL (p.content ++ [c]) (closeTagOf p.state) = true
    · simp only [hcl, if_pos, if_true] at h
      rcases hd : dispatchEvs p.state (pyStrip ((p.content ++ [c]).take
          ((p.content ++ [c]).length - (closeTagOf p.state).length))) with e | evs2 <;>
        simp only [hd] at h
      · exact absurd (congrArg Prod.snd h) (by simp)
      · have h2 := congrArg Prod.snd h
        simp only at h2
        cases h2
        simp
    · simp only [hcl, if_neg, if_false] at h
      have h2 := congrArg Prod.snd h
      simp only at h2
      cases h2
      exact hp

theorem feedChars_tagBuf_le : ∀ (cs : List Char) (p : ParserSt) (evs : List Event)
    (p2 : ParserSt), p.tagBuf.length ≤ maxTagLen + 2 →
    feedChars p cs = (evs, .ok p2) → p2.tagBuf.length ≤ maxTagLen + 2 := by
  intro cs
  induction cs with
  | nil =>
    intro p evs p2 hp h
    simp only [feedChars] at h
    cases h
    exact hp
  | cons c rest ih =>
    intro p evs p2 hp h
    simp only [feedChars] at h
    cases hpc : processChar p c with
    | mk evs1 r =>
      rw [hpc] at h
      cases r with
      | error e =>
        simp at h
      | ok pmid =>
        simp only at h
        cases hfr : feedChars pmid rest with
        | mk evs2 r2 =>
          rw [hfr] at h
          simp only at h
          have hr2 : r2 = .ok p2 := congrArg Prod.snd h
          rw [hr2] at hfr
          exact ih pmid evs2 p2 (processChar_tagBuf_le hp hpc) hfr

/-- C7: bounded lookahead. After processing any input from the initial
state, with a normal (exception-free) outcome, the TEXT-state lookahead
buffer holds at most the longest open-tag length plus the two-character
guard, because each step either matches a tag (clearing the buffer) or
flushes the oldest character as a text event once the bound is exceeded.
Since this holds for every input, it holds after every processed character
of every stream. -/
theorem c7_bounded_lookahead (cs : List Char) (evs : List Event) (p2 : ParserSt)
    (h : feedChars initP cs = (evs, .ok p2)) :
    p2.tagBuf.length ≤ maxTagLen + 2 :=
  feedChars_tagBuf_le cs initP evs p2 (by simp [initP]) h

/-- Witness for C7 at a concrete input. -/
theorem c7_witness :
    (⟨.text, tl "ab", []⟩ : ParserSt).tagBuf.length ≤ maxTagLen + 2 :=
  c7_bounded_lookahead (tl "ab") [] ⟨.text, tl "ab", []⟩ (by rfl)

/-- C6: `flush()` emits only text events: when the parser sits in the TEXT
state with a nonempty lookahead buffer, exactly that buffer is emitted as
one final text event; in any non-TEXT state (inside an unclosed thought,
action or end-of-task block) no event of any kind fires, so a truncated
block is never dispatched as a completed block. -/
theorem c6_flush_behavior (p : ParserSt) :
    (∀ e ∈ flushEvents p, ∃ s, e = Event.text s) ∧
    (p.state = .text → p.tagBuf ≠ [] → flushEvents p = [.text p.tagBuf]) ∧
    (p.state ≠ .text → flushEvents p = []) := by
  refine ⟨?_, ?_, ?_⟩
  · intro e he
    unfold flushEvents at he
    split at he
    · simp at he
      exact ⟨p.tagBuf, he⟩
    · simp at he
  · intro hs hb
    unfold flushEvents
    rw [if_pos ⟨hb, hs⟩]
  · intro hs
    unfold flushEvents
    rw [if_neg (fun hh => hs hh.2)]

/-- Witness for C6 at concrete parser states. -/
theorem c6_witness :
    flushEvents ⟨.text, tl "hi", []⟩ = [.text (tl "hi")] ∧
    flushEvents ⟨.action, [], tl "pending"⟩ = [] :=
  ⟨(c6_flush_behavior ⟨.text, tl "hi", []⟩).2.1 rfl (by decide),
   (c6_flush_behavior ⟨.action, [], tl "pending"⟩).2.2 (by simp)⟩

/-! Staged evaluations of the concrete streams, each a plain computation on
a literal piece; the theorems below chain them with `feedChars_append`. -/

theorem stage_open_action :
    feedChars initP (tl "<action>") = ([], .ok ⟨.action, [], []⟩) := by rfl

theorem stage_c2_pre :
    feedChars initP (tl "x<action>") = ([.text (tl "x")], .ok ⟨.action, [], []⟩) := by rfl

theorem stage_c2_pre2 :
    feedChars initP (tl "ok <action>") =
      ([.text (tl "ok ")], .ok ⟨.action, [], []⟩) := by rfl

theorem stage_c2_mid :
    feedChars ⟨.action, [], []⟩ c2Mid = ([], .ok ⟨.action, [], c2Mid⟩) := by rfl

theorem stage_c2_close :
    feedChars ⟨.action, [], c2Mid⟩ (tl ">y") =
      ([.action (tl "T") []], .ok ⟨.text, tl "y", []⟩) := by rfl

theorem stage_c2_close2 :
    feedChars ⟨.action, [], c2Mid⟩ (tl "> done") =
      ([.action (tl "T") []], .ok ⟨.text, tl " done", []⟩) := by rfl

theorem stage_c3_mid :
    feedChars ⟨.action, [], []⟩ c3Mid = ([], .ok ⟨.action, [], c3Mid⟩) := by rfl

theorem stage_c3_close :
    feedChars ⟨.action, [], c3Mid⟩ (tl ">") = ([], .error .attributeError) := by rfl

/-- C2 counterexample: on the stream
`x<action>\n{"tool":"T","args":{"a":1},}\n</action>y` the parser emits
exactly one action event, but with args `{}`, not `{"a": 1}`: the lenient
parse has no trailing-comma removal, `json.loads` rejects the content and
the regex fallback recovers only the tool name. -/
theorem c2_counterexample :
    eventsOfStream
        (tl "x<action>\n\x7b\x22tool\x22:\x22T\x22,\x22args\x22:\x7b\x22a\x22:1\x7d,\x7d\n</action>y") =
      [.text (tl "x"), .action (tl "T") [], .text (tl "y")] ∧
    Event.action (tl "T") [] ≠ Event.action (tl "T") [(Json.str (tl "a"), Json.num 1)] := by
  constructor
  · rw [show tl "x<action>\n\x7b\x22tool\x22:\x22T\x22,\x22args\x22:\x7b\x22a\x22:1\x7d,\x7d\n</action>y" =
        tl "x<action>" ++ (c2Mid ++ tl ">y") from rfl]
    unfold eventsOfStream
    rw [feedChars_append, stage_c2_pre]
    simp only [seqPR]
    rw [feedChars_append, stage_c2_mid]
    simp only [seqPR]
    rw [stage_c2_close]
    simp [flushEvents]
    decide
  · simp

/-- C2 (amended): with the trailing-comma block embedded in surrounding
text, the parser emits exactly one action event with tool `T` and args `{}`
(there is no comma-removal preprocessing; `json.loads` fails and the regex
fallback recovers the tool name with empty args), and the surrounding text
is reported verbatim as text events. -/
theorem c2_amended :
    eventsOfStream
        (tl "ok <action>\n\x7b\x22tool\x22:\x22T\x22,\x22args\x22:\x7b\x22a\x22:1\x7d,\x7d\n</action> done") =
      [.text (tl "ok "), .action (tl "T") [], .text (tl " done")] := by
  rw [show tl "ok <action>\n\x7b\x22tool\x22:\x22T\x22,\x22args\x22:\x7b\x22a\x22:1\x7d,\x7d\n</action> done" =
      tl "ok <action>" ++ (c2Mid ++ tl "> done") from rfl]
  unfold eventsOfStream
  rw [feedChars_append, stage_c2_pre2]
  simp only [seqPR]
  rw [feedChars_append, stage_c2_mid]
  simp only [seqPR]
  rw [stage_c2_close2]
  simp [flushEvents]
  decide

/-- C3 counterexample: feeding `<action>null</action>` raises an uncaught
`AttributeError` out of `feed` (the `try` in `_parse_action` catches only
`json.JSONDecodeError`, and `json.loads("null")` succeeds with `None`, so
`obj.get("tool")` raises): the parser does propagate an exception, firing
no callback for the block. -/
theorem c3_counterexample :
    feedChars initP (tl "<action>null</action>") = ([], .error .attributeError) := by
  rw [show tl "<action>null</action>" = tl "<action>" ++ (c3Mid ++ tl ">") from rfl]
  rw [feedChars_append, stage_open_action]
  simp only [seqPR]
  rw [feedChars_append, stage_c3_mid]
  simp only [seqPR]
  rw [stage_c3_close]
  simp

/-- C3 (amended): thought and end-of-task blocks always dispatch exactly
one event, and an action block whose content fails the lenient JSON parse
also dispatches exactly one event (a recovered action or a parse error)
without raising; but an action block whose content is valid non-object
JSON raises an uncaught exception (see the counterexample). -/
theorem c3_amended :
    (∀ c, dispatchEvs .thought c = .ok [.thought c]) ∧
    (∀ c, dispatchEvs .endofop c = .ok [.endofop c]) ∧
    (∀ c, jsonLoads (lenientPre c) = none →
      ∃ ev, dispatchEvs .action c = .ok [ev]) := by
  refine ⟨fun c => rfl, fun c => rfl, fun c h => ?_⟩
  cases hr : regexSearchTool (lenientPre c) with
  | none =>
    exact ⟨.parseError (tl "Failed to parse action: " ++ c.take 200),
      by simp only [dispatchEvs, parseActionE, h, hr]⟩
  | some t =>
    exact ⟨.action t [], by simp only [dispatchEvs, parseActionE, h, hr]⟩

/-- Witness for C3 (amended) at a concrete malformed content. -/
theorem c3_witness :
    ∃ ev, dispatchEvs .action (tl "garbage") = .ok [ev] :=
  c3_amended.2.2 (tl "garbage") (by rfl)

theorem stage_c1_mid :
    feedChars ⟨.action, [], []⟩ c1Mid = ([], .ok ⟨.action, [], c1Mid⟩) := by rfl

theorem stage_c1_close :
    feedChars ⟨.action, [], c1Mid⟩ (tl ">") =
      ([.action (tl "t") []], .ok ⟨.text, [], []⟩) := by rfl

theorem c1_frag_events :
    feedChars initP c1Frag = ([.action (tl "t") []], .ok ⟨.text, [], []⟩) := by
  rw [show c1Frag = tl "<action>" ++ (c1Mid ++ tl ">") from rfl]
  rw [feedChars_append, stage_open_action]
  simp only [seqPR]
  rw [feedChars_append, stage_c1_mid]
  simp only [seqPR]
  rw [stage_c1_close]
  simp

theorem c1_collect : collectStep [c1Frag] = .ok [.action (tl "t") []] := by
  unfold collectStep collectGo
  rw [c1_frag_events]
  simp [flushEvents]

/-- Unfolding of five identical-action steps of the `Agent.run` loop: the
run aborts with the stuck-loop result at the fifth occurrence of the
signature, having injected three nudges (the source guards the nudge with
`repeat_count >= 3`, so it fires at occurrences 3, 4 and 5). -/
theorem runAux_five_stuck (streams : Nat → List (List Char))
    (exec : List Char → List (Json × Json) → List Char) (t : List Char)
    (initMsgs : List Msg) (k : Nat)
    (H : ∀ i, 1 ≤ i → i ≤ 5 → collectStep (streams i) = .ok [Event.action t []]) :
    (runAux streams exec 1 (k + 5) initMsgs [] 0).result = stuckMsg t ∧
    (runAux streams exec 1 (k + 5) initMsgs [] 0).nudges = 3 := by
  have h1 := H 1 (by omega) (by omega)
  have h2 := H 2 (by omega) (by omega)
  have h3 := H 3 (by omega) (by omega)
  have h4 := H 4 (by omega) (by omega)
  have h5 := H 5 (by omega) (by omega)
  simp [runAux, h1, h2, h3, h4, h5, firstEndEv, firstActionEv, assembledText, countSig]

/-- C1 counterexample: a run in which the identical action signature fires
five times aborts with the stuck-loop result, but three corrective nudges
were injected (one at each of occurrences 3, 4 and 5), not exactly one. -/
theorem c1_counterexample :
    (agentRun [] (fun _ => [c1Frag]) (fun _ _ => tl "ok") 30).result =
      stuckMsg (tl "t") ∧
    (agentRun [] (fun _ => [c1Frag]) (fun _ _ => tl "ok") 30).nudges = 3 ∧
    (3 : Nat) ≠ 1 := by
  have h := runAux_five_stuck (fun _ => [c1Frag]) (fun _ _ => tl "ok") (tl "t") [] 25
    (fun i _ _ => c1_collect)
  exact ⟨h.1, h.2, by omega⟩

/-- C1 (amended): if the identical action signature (tool name, sorted-key
JSON of args) fires at each of the first five steps of one `Agent.run`,
the run aborts at the fifth occurrence with the stuck-loop outcome, and a
corrective user-role nudge is injected at each of occurrences 3, 4 and 5 —
three nudges in total, not exactly one at the third. -/
theorem c1_amended (streams : Nat → List (List Char))
    (exec : List Char → List (Json × Json) → List Char) (t : List Char)
    (initMsgs : List Msg) (maxSteps : Nat) (hms : 5 ≤ maxSteps)
    (H : ∀ i, 1 ≤ i → i ≤ 5 → collectStep (streams i) = .ok [Event.action t []]) :
    (agentRun initMsgs streams exec maxSteps).result = stuckMsg t ∧
    (agentRun initMsgs streams exec maxSteps).nudges = 3 := by
  obtain ⟨k, rfl⟩ : ∃ k, maxSteps = k + 5 := ⟨maxSteps - 5, by omega⟩
  exact runAux_five_stuck streams exec t initMsgs k H

/-- Witness for C1 (amended) at the concrete one-action-per-step oracle. -/
theorem c1_witness :
    (agentRun [] (fun _ => [c1Frag]) (fun _ _ => tl "done") 20).result =
      stuckMsg (tl "t") ∧
    (agentRun [] (fun _ => [c1Frag]) (fun _ _ => tl "done") 20).nudges = 3 :=
  c1_amended (fun _ => [c1Frag]) (fun _ _ => tl "done") (tl "t") [] 20 (by omega)
    (fun i _ _ => c1_collect)

/-- C4: in the replanning scenario (cycle 1 all sub-tasks pass, whole-goal
verification fails), the plan the next cycle executes is the fresh
`_plan(goal)` result `[c4T2]`, not the `_replan` product `[c4T2x]`: the
assignment `self.plan = self._replan(...)` is overwritten by
`self.plan = self._plan(goal)` at the head of the next cycle before any
use, contradicting the replanning path the module docstring describes. -/
theorem c4_replan_discarded :
    (runGoalM c4G 2 3).executed = [(1, [c4T1]), (2, [c4T2])] ∧
    (runGoalM c4G 2 3).replansMade = [[c4T2x]] ∧
    c4T2.descr ≠ c4T2x.descr :=
  ⟨by rfl, by rfl, by decide⟩

/-- C8: when the verification call itself raises a transport fault, the
orchestrator fails open: `_verify` returns a success outcome (with a
skipped-verification reason and empty fix hint) instead of propagating the
error or recording a failure. -/
theorem c8_verify_fail_open (e evidence : List Char) :
    verifyCall (.error e) evidence = (true, skipReason e, .str []) := rfl

theorem retryGo_spec (G : GoalOracles) (c idx : Nat) :
    ∀ (k attempt : Nat) (t : STask),
    (∀ i, attempt ≤ i → i < attempt + k →
      (verifyCall (G.subVerifyResp c idx i) (G.subEv c idx i)).1 = false) →
    (verifyCall (G.subVerifyResp c idx (attempt + k)) (G.subEv c idx (attempt + k))).1 =
      true →
    ∃ t2, retryGo G c idx attempt (k + 1) t = (t2, true) ∧
      t2.status = some (tl "done") ∧ t2.evidence = G.subEv c idx (attempt + k) := by
  intro k
  induction k with
  | zero =>
    intro attempt t _ hok
    rw [Nat.add_zero] at hok
    rcases hv : verifyCall (G.subVerifyResp c idx attempt) (G.subEv c idx attempt) with
      ⟨ok, reason, fix⟩
    rw [hv] at hok
    simp only at hok
    subst hok
    refine ⟨{ t with evidence := G.subEv c idx attempt, status := some (tl "done") },
      ?_, rfl, by rw [Nat.add_zero]⟩
    simp [retryGo, hv]
  | succ k ih =>
    intro attempt t hfail hok
    have hf1 : (verifyCall (G.subVerifyResp c idx attempt) (G.subEv c idx attempt)).1 =
        false := hfail attempt (le_refl _) (by omega)
    rcases hv : verifyCall (G.subVerifyResp c idx attempt) (G.subEv c idx attempt) with
      ⟨ok, reason, fix⟩
    rw [hv] at hf1
    simp only at hf1
    subst hf1
    have hshift : attempt + 1 + k = attempt + (k + 1) := by omega
    obtain ⟨t2, hrun, hst, hev⟩ := ih (attempt + 1) { t with fixHint := some fix }
      (fun i h1 h2 => hfail i (by omega) (by omega))
      (by rw [hshift]; exact hok)
    rw [hshift] at hev
    refine ⟨t2, ?_, hst, hev⟩
    simp only [retryGo, hv]
    simpa using hrun

/-- C9: a sub-task whose verifier rejects attempts `1 .. m-1` and accepts
attempt `m` (the final one, `m = max_retries`) is recorded done, appended
to the completed list, and its stored evidence is exactly the final
evidence of that final attempt; evidence of earlier attempts is discarded. -/
theorem c9_retry_final_evidence (G : GoalOracles) (c idx m : Nat) (t : STask)
    (comp fail : List STask) (hm : 1 ≤ m)
    (hfail : ∀ i, 1 ≤ i → i < m →
      (verifyCall (G.subVerifyResp c idx i) (G.subEv c idx i)).1 = false)
    (hok : (verifyCall (G.subVerifyResp c idx m) (G.subEv c idx m)).1 = true) :
    ∃ t2, execPlan G c m [t] idx comp fail = (true, comp ++ [t2], fail) ∧
      t2.status = some (tl "done") ∧ t2.evidence = G.subEv c idx m := by
  obtain ⟨k, rfl⟩ : ∃ k, m = k + 1 := ⟨m - 1, by omega⟩
  have h1k : 1 + k = k + 1 := by omega
  obtain ⟨t2, hrun, hst, hev⟩ := retryGo_spec G c idx k 1 t
    (fun i hi1 hi2 => hfail i hi1 (by omega)) (by rw [h1k]; exact hok)
  rw [h1k] at hev
  refine ⟨t2, ?_, hst, hev⟩
  simp only [execPlan, retrySub, hrun]
  simp [execPlan]

/-- Witness for C9 with `max_retries = 2`: rejected once, accepted on the
final attempt. -/
theorem c9_witness :
    ∃ t2, execPlan c9G 1 2 [mkTask 1 (tl "d") (tl "v")] 0 [] [] =
        (true, [] ++ [t2], []) ∧
      t2.status = some (tl "done") ∧ t2.evidence = c9G.subEv 1 0 2 :=
  c9_retry_final_evidence c9G 1 0 2 (mkTask 1 (tl "d") (tl "v")) [] [] (by omega)
    (fun i h1 h2 => by
      have hi : i = 1 := by omega
      subst hi
      rfl)
    (by rfl)

/-- C10: when `_run_subtask` returns normally, the agent configuration and
hooks are restored: the `max_steps` entry equals its value before the call
(it was only temporarily overridden to the per-subtask budget) and
`on_tool_result` is the callback installed before the call. -/
theorem c10_subtask_frame {H : Type} (a : AgentView H) (k : Nat)
    (capture : Option H → H) (trs : List (List Char × List Char))
    (res : List Char) (v : Nat) (hv : a.maxStepsEntry = some v) :
    ((runSubtaskM a k capture trs res).1).maxStepsEntry = some v ∧
    ((runSubtaskM a k capture trs res).1).onToolResult = a.onToolResult := by
  simp [runSubtaskM, hv]

/-- Witness for C10 at a concrete agent view. -/
theorem c10_witness :
    ((runSubtaskM (⟨some 7, some 5⟩ : AgentView Nat) 20 (fun _ => 0) []
        (tl "r")).1).maxStepsEntry = some 7 ∧
    ((runSubtaskM (⟨some 7, some 5⟩ : AgentView Nat) 20 (fun _ => 0) []
        (tl "r")).1).onToolResult = some 5 :=
  c10_subtask_frame ⟨some 7, some 5⟩ 20 (fun _ => 0) [] (tl "r") 7 rfl

end Axonix
